import Mathlib

/-!
Shallow embedding of `geoip_db.go` from mikroskeem/geosvc: the database
lifecycle manager (`SetupDatabase`), the cached lookup path (`GetRecord`) and
teardown (`Close`), together with theorems checking the specification's
claims against it.

External collaborators (HTTP transfer, the filesystem, gzip/tar decoding,
`crypto/md5`, `maxminddb.Open`/`Lookup`, the ARC cache from
hashicorp/golang-lru) are modelled as explicit inputs: an `Env` record gives
the outcome of each external operation a single `SetupDatabase` call
performs, and the decoder is a function argument of `GetRecord`.  The
function bodies below transcribe the Go control flow line by line; line
numbers in comments refer to `src/geoip_db.go`.
-/

namespace GeoSvc

/-- Abstract network address, modelling `netip.Addr` as an opaque
comparable key. -/
abbrev Addr := String

/-- Go `error` values appearing in `geoip_db.go`.  The three package
sentinels (`ErrorDatabaseNotOpen`, `ErrorDatabaseChecksumMismatch`,
`ErrorDatabaseNotFoundInArchive`) are distinct constructors; errors coming
from external calls carry their message and are wrapped in `ioError`
(transfer and filesystem errors), `openError` (`maxminddb.Open`) or
`decodeError` (record decoding), so no external call can ever produce a
package sentinel. -/
inductive GoError where
  | databaseNotOpen
  | checksumMismatch
  | notFoundInArchive
  | ioError (msg : String)
  | openError (msg : String)
  | decodeError (msg : String)
  deriving DecidableEq, Repr

/-- `GeoIPRecord.Country` (lines 35-37): always present, optional ISO code. -/
structure Country where
  iso_code : Option String
  deriving Repr

/-- Names block of the optional city information (lines 40-44). -/
structure CityNames where
  en : String
  deriving Repr

/-- Optional city information (lines 40-44). -/
structure City where
  names : CityNames
  deriving Repr

/-- Optional location information (lines 46-52); `accuracy_radius` is a Go
`uint16`, carried as a `Nat` (no arithmetic is ever performed on it). -/
structure Location where
  accuracy_radius : Nat
  latitude : Float
  longitude : Float
  time_zone : String
  deriving Repr

/-- `GeoIPRecord` (lines 34-53).  A record whose optional parts are all
absent is the valid "no data for this address" value. -/
structure GeoIPRecord where
  country : Country
  city : Option City
  location : Option Location
  deriving Repr

/-- Cache read, modelling `arc.ARCCache.Get`: the ARC cache is an
association from addresses to records; its internal recency/frequency
bookkeeping is not observable through any property proved here. -/
def cacheGet (c : List (Addr × GeoIPRecord)) (a : Addr) : Option GeoIPRecord :=
  (c.find? (fun p => p.1 == a)).map (fun p => p.2)

/-- Cache insertion, modelling `arc.ARCCache.Add`: the key becomes
immediately retrievable, a previous binding of the same key is replaced, and
when the cache is over capacity some other entry is evicted (the adaptive
choice of victim is abstracted as dropping from the tail; the real ARC
likewise never evicts the entry just added when the capacity is positive). -/
def cacheAdd (cap : Nat) (c : List (Addr × GeoIPRecord)) (a : Addr)
    (r : GeoIPRecord) : List (Addr × GeoIPRecord) :=
  ((a, r) :: c.filter (fun p => p.1 != a)).take cap

/-- The slice of the filesystem a `SetupDatabase` call touches: the five
paths under `g.dir` derived from the edition name, pairwise distinct as
strings for any fixed data directory and edition.  `dataFile` is
`<edition>.mmdb`, `sidecar` is `<edition>.mmdb.md5`, `archiveFile` is
`<edition>.tar.gz`, `newDataFile` is `<edition>.mmdb.new`,
`newChecksumFile` is `<edition>-last-downloaded.md5.new`.  `none` means the
file is absent; `some s` means it exists with contents `s`. -/
structure FS where
  dataFile : Option String
  sidecar : Option String
  archiveFile : Option String
  newDataFile : Option String
  newChecksumFile : Option String
  deriving DecidableEq, Repr

/-- The mutable fields of the `GeoIPDatabase` struct (lines 55-61): the
current `maxminddb.Reader` handle (by numeric id, `none` for Go `nil`), the
cache contents, the cache capacity fixed at construction, and the edition
name.  The data directory is absorbed into `FS`. -/
structure GState where
  db : Option Nat
  cache : List (Addr × GeoIPRecord)
  cacheSize : Nat
  edition : String

/-- Whole-system state: the `GeoIPDatabase` struct, the filesystem slice,
the set of handle ids that have been closed, and a counter minting fresh
handle ids. -/
structure World where
  g : GState
  fs : FS
  closed : List Nat
  nextId : Nat

/-- One entry of the downloaded tar archive. -/
structure TarEntry where
  name : String
  content : String
  deriving DecidableEq, Repr

/-- Outcomes of the external operations one `SetupDatabase` call performs,
in program order: the checksum probe (lines 105-107), the archive download
(line 133), `os.Create` and `io.Copy` of the archive (lines 136, 144), the
second checksum fetch (lines 154-156), `os.Open` and `gzip.NewReader` on
the archive (lines 172, 174), the sequence of `tar.Reader.Next` results
(line 183), `os.Create` and `io.Copy` of the extracted file (lines 199,
203), `os.WriteFile` of the sidecar (line 224), `maxminddb.Open` (line
244), and the md5 function of `crypto/md5` (abstract). -/
structure Env where
  md5Resp1 : Except String String
  archiveResp : Except String String
  createArchiveErr : Option String
  copyArchiveErr : Option String
  md5Resp2 : Except String String
  openArchiveErr : Option String
  gzipErr : Option String
  tarEntries : List (Except String TarEntry)
  createNewDBErr : Option String
  copyEntryErr : Option String
  writeChecksumFails : Bool
  openResult : Option String
  md5hex : String → String

/-- Observable events of one call, used to state locking and network
properties.  `lockAcquire`/`lockRelease` are the exclusive mutex
operations of lines 79-80; `httpGetMD5` and `httpGetArchive` are issued
HTTP GETs; the handle events mark lines 238, 244, 249 and 250. -/
inductive Event where
  | lockAcquire
  | lockRelease
  | httpGetMD5
  | httpGetArchive
  | closeHandle (id : Nat)
  | openHandle (id : Nat)
  | installHandle (id : Nat)
  | purgeCache
  deriving DecidableEq, Repr

/-- Go `strings.TrimSpace`, as a character-list computation. -/
def stringsTrimSpace (s : String) : String :=
  ⟨((s.data.dropWhile Char.isWhitespace).reverse.dropWhile
      Char.isWhitespace).reverse⟩

/-- Go `strings.ToLower`, as a character-list computation. -/
def stringsToLower (s : String) : String :=
  ⟨s.data.map Char.toLower⟩

/-- Go `path.Base`: strip trailing slashes, then take the last component. -/
def pathBase (p : String) : String :=
  if p = "" then "."
  else
    let q := p.data.reverse.dropWhile (fun c => c == '/')
    if q = [] then "/"
    else ⟨(q.takeWhile (fun c => c != '/')).reverse⟩

/-- Lines 63-76, `NewGeoIPDatabase`: `arc.NewARC` rejects a non-positive
capacity (the Go code panics), modelled by `none`. -/
def NewGeoIPDatabase (fs : FS) (cacheSize : Nat) (edition : String) :
    Option World :=
  if 1 ≤ cacheSize then
    some { g := { db := none, cache := [], cacheSize := cacheSize,
                  edition := edition },
           fs := fs, closed := [], nextId := 0 }
  else none

/-- Lines 86-121 of `SetupDatabase`: decide whether a download is needed.
`Sum.inl r` is an early `return r` with the world unchanged; `Sum.inr
(shouldDownload, lastDownloadedChecksum)` continues.  The second component
is the list of events this block emitted. -/
def checkStage (w : World) (env : Env) :
    (Option GoError ⊕ (Bool × String)) × List Event :=
  if w.fs.dataFile.isNone || w.fs.sidecar.isNone then
    -- lines 90-93: either file missing, download unconditionally
    (.inr (true, ""), [])
  else
    -- lines 97-120: `w.fs.sidecar.getD ""` is the recorded checksum read
    -- at line 98 (the file exists here); fetch the remote checksum,
    -- normalize by trimming, and compare
    match env.md5Resp1 with
    | .error s => (.inl (some (GoError.ioError s)), [Event.httpGetMD5])
    | .ok checksum =>
      if stringsTrimSpace checksum != w.fs.sidecar.getD "" then
        (.inr (true, stringsTrimSpace checksum), [Event.httpGetMD5])
      else if w.g.db.isSome then
        (.inl none, [Event.httpGetMD5])
      else
        (.inr (false, w.fs.sidecar.getD ""), [Event.httpGetMD5])

/-- Lines 181-213: iterate the tar entries looking for the single entry
whose base name is `<edition>.mmdb`; extract it to the temporary data file.
Returns the updated filesystem, an early-return error if any, and the
`databaseFound` flag. -/
def extractLoop (edition : String) (env : Env) (fs : FS) :
    List (Except String TarEntry) → FS × Option GoError × Bool
  | [] => (fs, none, false)
  | .error s :: _ => (fs, some (GoError.ioError s), false)
  | .ok h :: rest =>
    if pathBase h.name != edition ++ ".mmdb" then
      extractLoop edition env fs rest
    else
      -- lines 198-206: create the temporary data file and copy into it
      match env.createNewDBErr with
      | some s => (fs, some (GoError.ioError s), true)
      | none =>
        match env.copyEntryErr with
        | some s => ({ fs with newDataFile := some "" },
                      some (GoError.ioError s), true)
        | none => ({ fs with newDataFile := some h.content }, none, true)

/-- Lines 152-161 of `SetupDatabase`: when the expected checksum has not
been fetched yet (it is empty), fetch it from the checksum URL, trim and
lowercase it.  Returns the expected checksum and the events emitted, or the
fetch error. -/
def resolveChecksum (env : Env) (lastDownloadedChecksum : String) :
    String ⊕ (String × List Event) :=
  if lastDownloadedChecksum.length = 0 then
    match env.md5Resp2 with
    | .error s => Sum.inl s
    | .ok checksum =>
      Sum.inr (stringsToLower (stringsTrimSpace checksum), [Event.httpGetMD5])
  else
    Sum.inr (lastDownloadedChecksum, ([] : List Event))

/-- Lines 124-235 of `SetupDatabase`: download the archive, verify its
checksum, extract the database file and rename the temporaries into place.
`Sum.inl (w, r)` is an early `return r`; `Sum.inr w` falls through to the
install section. -/
def downloadStage (w : World) (env : Env) (lastDownloadedChecksum : String) :
    ((World × Option GoError) ⊕ World) × List Event :=
  -- line 133: GET the archive
  match env.archiveResp with
  | .error s => (.inl (w, some (GoError.ioError s)), [Event.httpGetArchive])
  | .ok body =>
    -- line 136: os.Create of the archive file
    match env.createArchiveErr with
    | some s => (.inl (w, some (GoError.ioError s)), [Event.httpGetArchive])
    | none =>
      -- line 144: io.Copy through the md5 TeeReader
      match env.copyArchiveErr with
      | some _ =>
        -- line 145: the code returns nil here, with the archive file
        -- created but only partially written (modelled as empty)
        (.inl ({ w with fs := { w.fs with archiveFile := some "" } }, none),
          [Event.httpGetArchive])
      | none =>
        let w1 : World := { w with fs := { w.fs with archiveFile := some body } }
        -- line 148: checksum of the streamed bytes
        let downloadedChecksum := env.md5hex body
        -- lines 152-161: fetch the remote checksum if not fetched yet
        match resolveChecksum env lastDownloadedChecksum with
        | .inl s =>
          (.inl (w1, some (GoError.ioError s)),
            [Event.httpGetArchive, Event.httpGetMD5])
        | .inr (lastCk, evExtra) =>
          -- lines 163-169: compare checksums
          if downloadedChecksum != lastCk then
            (.inl (w1, some GoError.checksumMismatch),
              [Event.httpGetArchive] ++ evExtra)
          else
            -- lines 171-175: os.Open and gzip.NewReader on the archive
            match env.openArchiveErr with
            | some s =>
              (.inl (w1, some (GoError.ioError s)),
                [Event.httpGetArchive] ++ evExtra)
            | none =>
              match env.gzipErr with
              | some s =>
                (.inl (w1, some (GoError.ioError s)),
                  [Event.httpGetArchive] ++ evExtra)
              | none =>
                match extractLoop w.g.edition env w1.fs env.tarEntries with
                | (fs2, some e, _) =>
                  (.inl ({ w1 with fs := fs2 }, some e),
                    [Event.httpGetArchive] ++ evExtra)
                | (fs2, none, false) =>
                  -- lines 211-213
                  (.inl ({ w1 with fs := fs2 },
                      some GoError.notFoundInArchive),
                    [Event.httpGetArchive] ++ evExtra)
                | (fs2, none, true) =>
                  -- line 218: delete the archive (failure only logged)
                  let fs3 := { fs2 with archiveFile := none }
                  -- lines 224-226: save the checksum (failure only logged)
                  let fs4 := if env.writeChecksumFails then fs3
                    else { fs3 with newChecksumFile := some lastCk }
                  -- lines 229-231: rename the temporary data file
                  match fs4.newDataFile with
                  | none =>
                    (.inl ({ w1 with fs := fs4 },
                        some (GoError.ioError "rename")),
                      [Event.httpGetArchive] ++ evExtra)
                  | some c =>
                    let fs5 := { fs4 with dataFile := some c,
                                          newDataFile := none }
                    -- lines 232-234: rename the temporary sidecar
                    match fs5.newChecksumFile with
                    | none =>
                      (.inl ({ w1 with fs := fs5 },
                          some (GoError.ioError "rename")),
                        [Event.httpGetArchive] ++ evExtra)
                    | some c2 =>
                      let fs6 := { fs5 with sidecar := some c2,
                                            newChecksumFile := none }
                      (.inr { w1 with fs := fs6 },
                        [Event.httpGetArchive] ++ evExtra)

/-- Lines 237-253 of `SetupDatabase`: close the previous handle (close
errors are only logged), open the freshly installed data file, install the
new handle and purge the cache.  `maxminddb.Open` fails outright when the
data file is absent; otherwise its outcome is `env.openResult`. -/
def installStage (w : World) (env : Env) :
    (World × Option GoError) × List Event :=
  let closePair :=
    match w.g.db with
    | some h => ({ w with closed := h :: w.closed }, [Event.closeHandle h])
    | none => (w, ([] : List Event))
  let w1 := closePair.1
  let evClose := closePair.2
  match w1.fs.dataFile with
  | none => ((w1, some (GoError.openError "no such file")), evClose)
  | some _ =>
    match env.openResult with
    | some s => ((w1, some (GoError.openError s)), evClose)
    | none =>
      let id := w1.nextId
      (({ w1 with
            g := { w1.g with db := some id, cache := [] },
            nextId := id + 1 },
          none),
        evClose ++ [Event.openHandle id, Event.installHandle id,
                    Event.purgeCache])

/-- Lines 78-254: `SetupDatabase`.  The exclusive mutex is acquired on
entry (line 79) and released by `defer` at every return (line 80); the
trace therefore brackets all stage events between `lockAcquire` and
`lockRelease`. -/
def SetupDatabase (w : World) (env : Env) :
    World × Option GoError × List Event :=
  match checkStage w env with
  | (.inl r, s1) =>
    (w, r, Event.lockAcquire :: (s1 ++ [Event.lockRelease]))
  | (.inr (shouldDownload, lastCk), s1) =>
    if shouldDownload then
      match downloadStage w env lastCk with
      | (.inl (w2, r), s2) =>
        (w2, r, Event.lockAcquire :: (s1 ++ s2 ++ [Event.lockRelease]))
      | (.inr w2, s2) =>
        let p := installStage w2 env
        (p.1.1, p.1.2,
          Event.lockAcquire :: (s1 ++ s2 ++ p.2 ++ [Event.lockRelease]))
    else
      let p := installStage w env
      (p.1.1, p.1.2,
        Event.lockAcquire :: (s1 ++ p.2 ++ [Event.lockRelease]))

/-- Lines 256-276: `GetRecord`.  The decoder (`maxminddb` `Lookup` then
`Decode`) is the function argument `dec`, applied to the current handle id;
the final `Bool` records whether the decoder was invoked (cache miss). -/
def GetRecord (w : World) (dec : Nat → Addr → Except String GeoIPRecord)
    (ip : Addr) : World × Except GoError GeoIPRecord × Bool :=
  match w.g.db with
  | none => (w, .error GoError.databaseNotOpen, false)
  | some id =>
    match cacheGet w.g.cache ip with
    | some cached => (w, .ok cached, false)
    | none =>
      match dec id ip with
      | .error s => (w, .error (GoError.decodeError s), true)
      | .ok record =>
        ({ w with g := { w.g with
              cache := cacheAdd w.g.cacheSize w.g.cache ip record } },
          .ok record, true)

/-- Lines 278-288: `Close`.  `closeErr` is the outcome of the underlying
`maxminddb.Reader.Close`; on error the handle reference is kept. -/
def Close (w : World) (closeErr : Option String) : World × Option GoError :=
  match w.g.db with
  | none => (w, none)
  | some id =>
    match closeErr with
    | some s => (w, some (GoError.ioError s))
    | none =>
      ({ w with g := { w.g with db := none }, closed := id :: w.closed },
        none)

/-- Events of a trace that occur while the exclusive mutex is held; the
`Bool` argument is whether the lock is held before the first event. -/
def eventsUnderLock : List Event → Bool → List Event
  | [], _ => []
  | e :: rest, held =>
    if e = Event.lockAcquire then eventsUnderLock rest true
    else if e = Event.lockRelease then eventsUnderLock rest false
    else (if held then [e] else []) ++ eventsUnderLock rest held

/-- Is this event the installation of a new handle? -/
def isInstallEvent : Event → Bool
  | Event.installHandle _ => true
  | _ => false

/-- Modelled from the spec: the spec's refresh contract
`refresh(credentials) -> Result<Installed|NoChangeNeeded, RefreshError>`
distinguishes two success outcomes; the Go function returns a bare `nil`
in both cases, so a successful call is classified `installed` exactly when
it installed a new handle. -/
inductive RefreshKind where
  | installed
  | noChangeNeeded
  deriving DecidableEq, Repr

/-- Modelled from the spec: classification of one call's trace as the
spec's `Installed` versus `NoChangeNeeded` success outcome. -/
def refreshKind (tr : List Event) : RefreshKind :=
  if tr.any isInstallEvent then .installed else .noChangeNeeded

/-- A lookup observes a closed handle when it invokes the decoder on the
current handle while that handle's id has already been closed. -/
def observesClosedHandle (w : World)
    (dec : Nat → Addr → Except String GeoIPRecord) (ip : Addr) : Prop :=
  (GetRecord w dec ip).2.2 = true ∧ ∃ id, w.g.db = some id ∧ id ∈ w.closed

/-! ## Concrete fixtures used by witnesses and counterexamples -/

/-- A filesystem holding an installed database and its checksum sidecar. -/
def fs0 : FS :=
  { dataFile := some "olddb", sidecar := some "aa", archiveFile := none,
    newDataFile := none, newChecksumFile := none }

/-- A state with handle `0` open over `fs0`, empty cache, default capacity. -/
def w0 : World :=
  { g := { db := some 0, cache := [], cacheSize := 1024,
           edition := "GeoLite2-Country" },
    fs := fs0, closed := [], nextId := 1 }

/-- A fresh state with no files and no handle (first startup). -/
def wStart : World :=
  { g := { db := none, cache := [], cacheSize := 1024,
           edition := "GeoLite2-Country" },
    fs := { dataFile := none, sidecar := none, archiveFile := none,
            newDataFile := none, newChecksumFile := none },
    closed := [], nextId := 0 }

/-- An environment where every external operation succeeds: the remote
checksum is `"bb"`, the archive body hashes to `"bb"` and contains the
edition's database file. -/
def envBase : Env :=
  { md5Resp1 := .ok "bb", archiveResp := .ok "NEWDB",
    createArchiveErr := none, copyArchiveErr := none,
    md5Resp2 := .ok "bb", openArchiveErr := none, gzipErr := none,
    tarEntries := [.ok ⟨"GeoLite2-Country.mmdb", "newdbbytes"⟩],
    createNewDBErr := none, copyEntryErr := none,
    writeChecksumFails := false, openResult := none,
    md5hex := fun _ => "bb" }

/-- Like `envBase` but `maxminddb.Open` fails on the new file. -/
def envOpenFail : Env := { envBase with openResult := some "corrupt" }

/-- Like `envBase` but `io.Copy` of the archive to disk fails. -/
def envCopyFail : Env := { envBase with copyArchiveErr := some "disk full" }

/-- Like `envBase` but the downloaded bytes hash to `"cc"`, not matching
the expected checksum `"bb"`. -/
def envMis : Env := { envBase with md5hex := fun _ => "cc" }

/-- Like `envBase` but the remote checksum probe answers `" aa "`, which
trims to the locally recorded `"aa"` — no update available. -/
def envNoChange : Env := { envBase with md5Resp1 := .ok " aa " }

/-- Like `envBase` but the archive contains no entry whose base name is
`GeoLite2-Country.mmdb`. -/
def envNoEntry : Env :=
  { envBase with tarEntries := [.ok ⟨"ReadMe.txt", "hi"⟩] }

/-- The "no data for this address" record: present country block with an
absent ISO code, no city, no location. -/
def recNoData : GeoIPRecord :=
  { country := { iso_code := none }, city := none, location := none }

/-- A decoder that always succeeds with the "no data" record. -/
def decNoData : Nat → Addr → Except String GeoIPRecord :=
  fun _ _ => .ok recNoData

/-! ## Claims -/

/-- C1: the claim says that when opening the newly installed database file
fails, the previous handle remains installed *and serving* and no lookup
ever observes a closed handle.  The code instead closes the old handle
(line 238) before attempting the open (line 244): in the concrete run below
the open fails, the error is surfaced and the handle reference is
unchanged, but that handle (id 0) has already been closed, and the very
next lookup invokes the decoder on it — a lookup observes a closed
handle. -/
theorem setup_openFailure_lookup_observes_closed_handle :
    (SetupDatabase w0 envOpenFail).2.1 = some (GoError.openError "corrupt") ∧
    (SetupDatabase w0 envOpenFail).1.g.db = some 0 ∧
    0 ∈ (SetupDatabase w0 envOpenFail).1.closed ∧
    observesClosedHandle (SetupDatabase w0 envOpenFail).1 decNoData
      "1.2.3.4" :=
  ⟨rfl, rfl, by decide, rfl, 0, rfl, by decide⟩

/-- C2: the claim says a failed `io.Copy` of the archive makes refresh
return the error.  Line 145 instead executes `return nil`: in the concrete
startup run below the copy fails with an I/O error, yet `SetupDatabase`
returns success while leaving no database handle installed. -/
theorem setup_copyError_returns_success_without_handle :
    (SetupDatabase wStart envCopyFail).2.1 = none ∧
    (SetupDatabase wStart envCopyFail).1.g.db = none :=
  ⟨rfl, rfl⟩

/-- C5 counterexample: a refresh that fails checksum verification leaves
the downloaded archive file on disk after returning — the temporary
artifacts are not discarded (the cleanup at lines 166-167 is commented out
and the archive delete at line 218 is reached only on success), so the
transient refresh state is observable outside the call. -/
theorem setup_checksumMismatch_archive_persists :
    (SetupDatabase w0 envMis).2.1 = some GoError.checksumMismatch ∧
    (SetupDatabase w0 envMis).1.fs.archiveFile = some "NEWDB" :=
  ⟨rfl, rfl⟩

/-- C9 counterexample: in the concrete startup run below the archive
download is performed while the exclusive mutex is held — the lock is
acquired at line 79 before any network operation and released only on
return, so the download does not happen outside the lock as claimed. -/
theorem setup_download_performed_under_lock :
    Event.httpGetArchive ∈
      eventsUnderLock (SetupDatabase wStart envBase).2.2 false := by
  decide

/-- `GetRecord` when no handle is installed (lines 260-262). -/
theorem GetRecord_db_none (w : World)
    (dec : Nat → Addr → Except String GeoIPRecord) (a : Addr)
    (h : w.g.db = none) :
    GetRecord w dec a = (w, .error GoError.databaseNotOpen, false) := by
  unfold GetRecord
  rw [h]

/-- `GetRecord` on a cache hit (lines 264-266). -/
theorem GetRecord_hit (w : World)
    (dec : Nat → Addr → Except String GeoIPRecord) (a : Addr) (id : Nat)
    (c : GeoIPRecord) (h : w.g.db = some id)
    (hc : cacheGet w.g.cache a = some c) :
    GetRecord w dec a = (w, .ok c, false) := by
  unfold GetRecord
  rw [h, hc]

/-- `GetRecord` on a cache miss with a failing decode (lines 268-272). -/
theorem GetRecord_miss_err (w : World)
    (dec : Nat → Addr → Except String GeoIPRecord) (a : Addr) (id : Nat)
    (s : String) (h : w.g.db = some id)
    (hc : cacheGet w.g.cache a = none) (hd : dec id a = .error s) :
    GetRecord w dec a = (w, .error (GoError.decodeError s), true) := by
  unfold GetRecord
  simp only [h, hc, hd]

/-- `GetRecord` on a cache miss with a successful decode (lines 268-275):
the decoded record is inserted into the cache and returned. -/
theorem GetRecord_miss_ok (w : World)
    (dec : Nat → Addr → Except String GeoIPRecord) (a : Addr) (id : Nat)
    (rec : GeoIPRecord) (h : w.g.db = some id)
    (hc : cacheGet w.g.cache a = none) (hd : dec id a = .ok rec) :
    GetRecord w dec a =
      ({ w with
          g := { w.g with
                  cache := cacheAdd w.g.cacheSize w.g.cache a rec } },
        .ok rec, true) := by
  unfold GetRecord
  simp only [h, hc, hd]

/-- C10: if `Close` returns successfully the handle reference is cleared,
every subsequent lookup fails with `ErrorDatabaseNotOpen` without touching
any handle, and a second `Close` is a no-op returning success. -/
theorem close_success_clears_handle (w : World) (ce : Option String)
    (w' : World) (hrun : Close w ce = (w', none)) :
    w'.g.db = none ∧
    (∀ dec a, GetRecord w' dec a = (w', .error GoError.databaseNotOpen,
      false)) ∧
    (∀ ce', Close w' ce' = (w', none)) := by
  have hdb' : w'.g.db = none := by
    unfold Close at hrun
    rcases hdb : w.g.db with _ | id <;> rw [hdb] at hrun
    · simp only [Prod.mk.injEq] at hrun
      obtain ⟨rfl, -⟩ := hrun
      exact hdb
    · rcases ce with _ | s
      · simp only [Prod.mk.injEq] at hrun
        obtain ⟨rfl, -⟩ := hrun
        rfl
      · simp at hrun
  refine ⟨hdb', ?_, ?_⟩
  · intro dec a
    exact GetRecord_db_none w' dec a hdb'
  · intro ce'
    unfold Close
    rw [hdb']

/-- Witness for `close_success_clears_handle` at the concrete state `w0`. -/
theorem close_success_clears_handle_witness :
    (Close w0 none).1.g.db = none ∧
    GetRecord (Close w0 none).1 decNoData "8.8.8.8" =
      ((Close w0 none).1, .error GoError.databaseNotOpen, false) ∧
    Close (Close w0 none).1 none = ((Close w0 none).1, none) :=
  ⟨(close_success_clears_handle w0 none (Close w0 none).1 rfl).1,
   (close_success_clears_handle w0 none (Close w0 none).1 rfl).2.1
     decNoData "8.8.8.8",
   (close_success_clears_handle w0 none (Close w0 none).1 rfl).2.2 none⟩

/-- A freshly added cache entry is retrievable whenever the capacity is
positive (the constructor rejects capacity zero). -/
theorem cacheGet_cacheAdd (cap : Nat) (c : List (Addr × GeoIPRecord))
    (a : Addr) (r : GeoIPRecord) (hcap : 1 ≤ cap) :
    cacheGet (cacheAdd cap c a r) a = some r := by
  obtain ⟨n, rfl⟩ : ∃ n, cap = n + 1 :=
    ⟨cap - 1, (Nat.succ_pred_eq_of_pos hcap).symm⟩
  unfold cacheAdd cacheGet
  rw [List.take_succ_cons, List.find?_cons_of_pos _ (by simp)]
  rfl

/-- C7: a second `lookup(A)` immediately after a successful first
`lookup(A)` against an unchanged handle is answered from the cache without
invoking the decoder again and returns the cached record — including when
that record represents "no data for this address". -/
theorem second_lookup_is_cache_hit (w : World)
    (dec : Nat → Addr → Except String GeoIPRecord) (a : Addr)
    (w₁ : World) (r : GeoIPRecord) (b : Bool)
    (hcap : 1 ≤ w.g.cacheSize)
    (hrun : GetRecord w dec a = (w₁, .ok r, b)) :
    GetRecord w₁ dec a = (w₁, .ok r, false) := by
  rcases hdb : w.g.db with _ | id
  · rw [GetRecord_db_none w dec a hdb] at hrun
    simp at hrun
  · rcases hc : cacheGet w.g.cache a with _ | cached
    · rcases hd : dec id a with s | rec
      · rw [GetRecord_miss_err w dec a id s hdb hc hd] at hrun
        simp at hrun
      · rw [GetRecord_miss_ok w dec a id rec hdb hc hd] at hrun
        simp only [Prod.mk.injEq, Except.ok.injEq] at hrun
        obtain ⟨rfl, rfl, rfl⟩ := hrun
        exact GetRecord_hit _ dec a id rec hdb
          (cacheGet_cacheAdd _ _ _ _ hcap)
    · rw [GetRecord_hit w dec a id cached hdb hc] at hrun
      simp only [Prod.mk.injEq, Except.ok.injEq] at hrun
      obtain ⟨rfl, rfl, rfl⟩ := hrun
      exact GetRecord_hit w dec a id cached hdb hc

/-- Witness for `second_lookup_is_cache_hit`: at `w0`, looking up an
address whose record is the "no data" record, then looking it up again,
hits the cache. -/
theorem second_lookup_is_cache_hit_witness :
    GetRecord (GetRecord w0 decNoData "8.8.8.8").1 decNoData "8.8.8.8" =
      ((GetRecord w0 decNoData "8.8.8.8").1, .ok recNoData, false) :=
  second_lookup_is_cache_hit w0 decNoData "8.8.8.8"
    (GetRecord w0 decNoData "8.8.8.8").1 recNoData true (by decide) rfl

/-! ## Stage classification lemmas -/

/-- The staleness-check block emits at most the checksum probe. -/
theorem checkStage_events (w : World) (env : Env) :
    ∀ x ∈ (checkStage w env).2, x = Event.httpGetMD5 := by
  intro x hx
  unfold checkStage at hx
  repeat' split at hx
  all_goals simpa using hx

/-- An early return from the staleness check is either the no-change `nil`
or an I/O error — never a package sentinel. -/
theorem checkStage_inl_shape (w : World) (env : Env) (r : Option GoError)
    (s1 : List Event) (h : checkStage w env = (.inl r, s1)) :
    r = none ∨ ∃ m, r = some (GoError.ioError m) := by
  unfold checkStage at h
  repeat' split at h
  all_goals simp only [Prod.mk.injEq, Sum.inl.injEq] at h
  all_goals first
    | exact Or.inl h.1.symm
    | exact Or.inr ⟨_, h.1.symm⟩
    | exact absurd h (by simp)

/-- The checksum-resolution block emits at most one probe. -/
theorem resolveChecksum_events (env : Env) (ck ckr : String)
    (ev : List Event) (h : resolveChecksum env ck = .inr (ckr, ev)) :
    ev = [] ∨ ev = [Event.httpGetMD5] := by
  unfold resolveChecksum at h
  split at h
  · split at h
    · exact absurd h (by simp)
    · simp only [Sum.inr.injEq, Prod.mk.injEq] at h
      exact Or.inr h.2.symm
  · simp only [Sum.inr.injEq, Prod.mk.injEq] at h
    exact Or.inl h.2.symm

/-- The download block emits only HTTP GET events. -/
theorem downloadStage_events (w : World) (env : Env) (ck : String) :
    ∀ x ∈ (downloadStage w env ck).2,
      x = Event.httpGetArchive ∨ x = Event.httpGetMD5 := by
  intro x hx
  unfold downloadStage at hx
  rcases harc : env.archiveResp with s | body <;> simp only [harc] at hx
  · exact Or.inl (by simpa using hx)
  · rcases hca : env.createArchiveErr with _ | s <;> simp only [hca] at hx
    · rcases hcp : env.copyArchiveErr with _ | s <;> simp only [hcp] at hx
      · rcases hres : resolveChecksum env ck with s | p <;>
          simp only [hres] at hx
        · simpa using hx
        · obtain ⟨lastCk, evExtra⟩ := p
          rcases resolveChecksum_events env ck lastCk evExtra hres with
            rfl | rfl <;>
            repeat' split at hx
          all_goals first
            | exact Or.inl (by simpa using hx)
            | simpa using hx
      · exact Or.inl (by simpa using hx)
    · exact Or.inl (by simpa using hx)

/-- Errors returned from inside the tar-extraction loop are I/O errors. -/
theorem extractLoop_err_shape (ed : String) (env : Env) (fs fs' : FS)
    (entries : List (Except String TarEntry)) (e : GoError) (b : Bool)
    (h : extractLoop ed env fs entries = (fs', some e, b)) :
    ∃ m, e = GoError.ioError m := by
  induction entries with
  | nil => simp [extractLoop] at h
  | cons x rest ih =>
    rcases x with s | te
    · simp only [extractLoop, Prod.mk.injEq, Option.some.injEq] at h
      exact ⟨s, h.2.1.symm⟩
    · unfold extractLoop at h
      split at h
      · exact ih h
      · rcases hcn : env.createNewDBErr with _ | s <;> simp only [hcn] at h
        · rcases hce : env.copyEntryErr with _ | s <;> simp only [hce] at h
          · simp at h
          · simp only [Prod.mk.injEq, Option.some.injEq] at h
            exact ⟨s, h.2.1.symm⟩
        · simp only [Prod.mk.injEq, Option.some.injEq] at h
          exact ⟨s, h.2.1.symm⟩

/-- When no entry of the archive has the edition's base name, the
extraction loop reports `databaseFound = false` and leaves the filesystem
untouched. -/
theorem extractLoop_no_match (ed : String) (env : Env) (fs : FS)
    (entries : List (Except String TarEntry))
    (h : ∀ e ∈ entries, ∃ te, e = .ok te ∧
      pathBase te.name ≠ ed ++ ".mmdb") :
    extractLoop ed env fs entries = (fs, none, false) := by
  induction entries with
  | nil => rfl
  | cons x rest ih =>
    obtain ⟨te, rfl, hne⟩ := h x (List.mem_cons_self x rest)
    unfold extractLoop
    rw [if_pos (bne_iff_ne.mpr hne)]
    exact ih (fun e he => h e (List.mem_cons_of_mem _ he))

/-- Evaluation of the install section: no previous handle, data file
absent. -/
theorem installStage_eq_nn (w : World) (env : Env)
    (hdb : w.g.db = none) (hdf : w.fs.dataFile = none) :
    installStage w env =
      ((w, some (GoError.openError "no such file")), []) := by
  unfold installStage
  simp [hdb, hdf]

/-- Evaluation of the install section: no previous handle, open fails. -/
theorem installStage_eq_nf (w : World) (env : Env) (c s : String)
    (hdb : w.g.db = none) (hdf : w.fs.dataFile = some c)
    (hor : env.openResult = some s) :
    installStage w env = ((w, some (GoError.openError s)), []) := by
  unfold installStage
  simp [hdb, hdf, hor]

/-- Evaluation of the install section: no previous handle, open succeeds. -/
theorem installStage_eq_ns (w : World) (env : Env) (c : String)
    (hdb : w.g.db = none) (hdf : w.fs.dataFile = some c)
    (hor : env.openResult = none) :
    installStage w env =
      (({ w with
          g := { w.g with db := some w.nextId, cache := [] },
          nextId := w.nextId + 1 }, none),
        [Event.openHandle w.nextId, Event.installHandle w.nextId,
         Event.purgeCache]) := by
  unfold installStage
  simp [hdb, hdf, hor]

/-- Evaluation of the install section: previous handle closed, data file
absent. -/
theorem installStage_eq_sn (w : World) (env : Env) (hid : Nat)
    (hdb : w.g.db = some hid) (hdf : w.fs.dataFile = none) :
    installStage w env =
      (({ w with closed := hid :: w.closed },
        some (GoError.openError "no such file")),
        [Event.closeHandle hid]) := by
  unfold installStage
  simp [hdb, hdf]

/-- Evaluation of the install section: previous handle closed, open
fails — the closed handle stays referenced by `g.db`. -/
theorem installStage_eq_sf (w : World) (env : Env) (hid : Nat) (c s : String)
    (hdb : w.g.db = some hid) (hdf : w.fs.dataFile = some c)
    (hor : env.openResult = some s) :
    installStage w env =
      (({ w with closed := hid :: w.closed },
        some (GoError.openError s)),
        [Event.closeHandle hid]) := by
  unfold installStage
  simp [hdb, hdf, hor]

/-- Evaluation of the install section: previous handle closed, open
succeeds, new handle installed and cache purged. -/
theorem installStage_eq_ss (w : World) (env : Env) (hid : Nat) (c : String)
    (hdb : w.g.db = some hid) (hdf : w.fs.dataFile = some c)
    (hor : env.openResult = none) :
    installStage w env =
      (({ w with
          g := { w.g with db := some w.nextId, cache := [] },
          closed := hid :: w.closed, nextId := w.nextId + 1 }, none),
        [Event.closeHandle hid, Event.openHandle w.nextId,
         Event.installHandle w.nextId, Event.purgeCache]) := by
  unfold installStage
  simp [hdb, hdf, hor]

/-- The install section can fail only through `maxminddb.Open`. -/
theorem installStage_err_shape (w : World) (env : Env) (e : GoError)
    (h : (installStage w env).1.2 = some e) :
    ∃ m, e = GoError.openError m := by
  rcases hdb : w.g.db with _ | hid
  · rcases hdf : w.fs.dataFile with _ | c
    · rw [installStage_eq_nn w env hdb hdf] at h
      exact ⟨_, (Option.some.inj h).symm⟩
    · rcases hor : env.openResult with _ | s
      · rw [installStage_eq_ns w env c hdb hdf hor] at h
        simp at h
      · rw [installStage_eq_nf w env c s hdb hdf hor] at h
        exact ⟨s, (Option.some.inj h).symm⟩
  · rcases hdf : w.fs.dataFile with _ | c
    · rw [installStage_eq_sn w env hid hdb hdf] at h
      exact ⟨_, (Option.some.inj h).symm⟩
    · rcases hor : env.openResult with _ | s
      · rw [installStage_eq_ss w env hid c hdb hdf hor] at h
        simp at h
      · rw [installStage_eq_sf w env hid c s hdb hdf hor] at h
        exact ⟨s, (Option.some.inj h).symm⟩

/-- The install section emits no lock events. -/
theorem installStage_events (w : World) (env : Env) :
    ∀ x ∈ (installStage w env).2,
      x ≠ Event.lockAcquire ∧ x ≠ Event.lockRelease := by
  intro x hx
  rcases hdb : w.g.db with _ | hid
  · rcases hdf : w.fs.dataFile with _ | c
    · rw [installStage_eq_nn w env hdb hdf] at hx
      simp at hx
    · rcases hor : env.openResult with _ | s
      · rw [installStage_eq_ns w env c hdb hdf hor] at hx
        fin_cases hx <;> simp
      · rw [installStage_eq_nf w env c s hdb hdf hor] at hx
        simp at hx
  · rcases hdf : w.fs.dataFile with _ | c
    · rw [installStage_eq_sn w env hid hdb hdf] at hx
      fin_cases hx <;> simp
    · rcases hor : env.openResult with _ | s
      · rw [installStage_eq_ss w env hid c hdb hdf hor] at hx
        fin_cases hx <;> simp
      · rw [installStage_eq_sf w env hid c s hdb hdf hor] at hx
        fin_cases hx <;> simp

/-- When the install section's event list mentions `installHandle id`, the
call succeeded, `id` is the newly current handle, and the cache was purged
in the same block. -/
theorem installStage_install_mem (w : World) (env : Env) (id : Nat)
    (h : Event.installHandle id ∈ (installStage w env).2) :
    (installStage w env).1.2 = none ∧
    (installStage w env).1.1.g.db = some id ∧
    (installStage w env).1.1.g.cache = [] ∧
    Event.purgeCache ∈ (installStage w env).2 := by
  rcases hdb : w.g.db with _ | hid
  · rcases hdf : w.fs.dataFile with _ | c
    · rw [installStage_eq_nn w env hdb hdf] at h
      simp at h
    · rcases hor : env.openResult with _ | s
      · rw [installStage_eq_ns w env c hdb hdf hor] at h ⊢
        obtain rfl : id = w.nextId := by simpa using h
        exact ⟨rfl, rfl, rfl, by simp⟩
      · rw [installStage_eq_nf w env c s hdb hdf hor] at h
        simp at h
  · rcases hdf : w.fs.dataFile with _ | c
    · rw [installStage_eq_sn w env hid hdb hdf] at h
      simp at h
    · rcases hor : env.openResult with _ | s
      · rw [installStage_eq_ss w env hid c hdb hdf hor] at h ⊢
        obtain rfl : id = w.nextId := by simpa using h
        exact ⟨rfl, rfl, rfl, by simp⟩
      · rw [installStage_eq_sf w env hid c s hdb hdf hor] at h
        simp at h

/-! ## Trace shape: the lock brackets every call -/

/-- Scanning a lock-free event list followed by the closing release. -/
theorem eventsUnderLock_append_release (l : List Event)
    (h : ∀ x ∈ l, x ≠ Event.lockAcquire ∧ x ≠ Event.lockRelease) :
    eventsUnderLock (l ++ [Event.lockRelease]) true = l := by
  induction l with
  | nil => rfl
  | cons e l ih =>
    obtain ⟨h1, h2⟩ := h e (List.mem_cons_self e l)
    rw [List.cons_append]
    rw [show eventsUnderLock (e :: (l ++ [Event.lockRelease])) true =
        (if true then [e] else []) ++
          eventsUnderLock (l ++ [Event.lockRelease]) true from by
      rw [eventsUnderLock, if_neg h1, if_neg h2]]
    rw [ih (fun x hx => h x (List.mem_cons_of_mem e hx))]
    rfl

/-- A trace of the shape `lockAcquire :: mid ++ [lockRelease]` with a
lock-free middle holds the lock exactly over `mid`. -/
theorem eventsUnderLock_bracket (mid : List Event)
    (h : ∀ x ∈ mid, x ≠ Event.lockAcquire ∧ x ≠ Event.lockRelease) :
    eventsUnderLock (Event.lockAcquire :: (mid ++ [Event.lockRelease]))
      false = mid := by
  rw [show eventsUnderLock
        (Event.lockAcquire :: (mid ++ [Event.lockRelease])) false =
      eventsUnderLock (mid ++ [Event.lockRelease]) true from by
    rw [eventsUnderLock, if_pos rfl]]
  exact eventsUnderLock_append_release mid h

/-- Membership in a bracketed trace for a non-lock event is membership in
the middle. -/
theorem mem_mid_of_mem_trace (mid : List Event) (x : Event)
    (hx : x ∈ Event.lockAcquire :: (mid ++ [Event.lockRelease]))
    (h1 : x ≠ Event.lockAcquire) (h2 : x ≠ Event.lockRelease) :
    x ∈ mid := by
  rcases List.mem_cons.mp hx with h | h
  · exact absurd h h1
  · rcases List.mem_append.mp h with h' | h'
    · exact h'
    · exact absurd (List.mem_singleton.mp h') h2

/-- Every `SetupDatabase` trace is the exclusive-lock acquisition, a
lock-free middle, and the deferred release — the lock is held for the whole
call. -/
theorem setup_trace_shape (w : World) (env : Env) :
    ∃ mid, (SetupDatabase w env).2.2 =
        Event.lockAcquire :: (mid ++ [Event.lockRelease]) ∧
      ∀ x ∈ mid, x ≠ Event.lockAcquire ∧ x ≠ Event.lockRelease := by
  rcases h1 : checkStage w env with ⟨x, s1⟩
  have hs1 : ∀ y ∈ s1, y ≠ Event.lockAcquire ∧ y ≠ Event.lockRelease := by
    have hc := checkStage_events w env
    rw [h1] at hc
    intro y hy
    rcases hc y hy with rfl
    exact ⟨by simp, by simp⟩
  rcases x with r | ⟨sd, ck⟩
  · refine ⟨s1, ?_, hs1⟩
    unfold SetupDatabase
    rw [h1]
  · cases sd
    · refine ⟨s1 ++ (installStage w env).2, ?_, ?_⟩
      · unfold SetupDatabase
        simp only [h1]
        simp [List.append_assoc]
      · intro y hy
        rcases List.mem_append.mp hy with h | h
        · exact hs1 y h
        · exact installStage_events w env y h
    · rcases h2 : downloadStage w env ck with ⟨dl, s2⟩
      have hs2 : ∀ y ∈ s2, y ≠ Event.lockAcquire ∧
          y ≠ Event.lockRelease := by
        have hd := downloadStage_events w env ck
        rw [h2] at hd
        intro y hy
        rcases hd y hy with rfl | rfl
        · exact ⟨by simp, by simp⟩
        · exact ⟨by simp, by simp⟩
      rcases dl with ⟨w2, r2⟩ | w2
      · refine ⟨s1 ++ s2, ?_, ?_⟩
        · unfold SetupDatabase
          simp only [h1, h2]
          simp [List.append_assoc]
        · intro y hy
          rcases List.mem_append.mp hy with h | h
          · exact hs1 y h
          · exact hs2 y h
      · refine ⟨s1 ++ s2 ++ (installStage w2 env).2, ?_, ?_⟩
        · unfold SetupDatabase
          simp only [h1, h2]
          simp [List.append_assoc]
        · intro y hy
          rcases List.mem_append.mp hy with h | h
          · rcases List.mem_append.mp h with h' | h'
            · exact hs1 y h'
            · exact hs2 y h'
          · exact installStage_events w2 env y h

/-- A successful install during `SetupDatabase` means the call returned
`nil`, the installed handle is current, and the cache was purged. -/
theorem setup_install_inv (w : World) (env : Env) (id : Nat)
    (hinst : Event.installHandle id ∈ (SetupDatabase w env).2.2) :
    (SetupDatabase w env).2.1 = none ∧
    (SetupDatabase w env).1.g.db = some id ∧
    (SetupDatabase w env).1.g.cache = [] ∧
    Event.purgeCache ∈ (SetupDatabase w env).2.2 := by
  unfold SetupDatabase at hinst ⊢
  rcases h1 : checkStage w env with ⟨x, s1⟩
  have hs1 : ∀ y ∈ s1, y = Event.httpGetMD5 := by
    have hc := checkStage_events w env
    rw [h1] at hc
    exact hc
  rcases x with r | ⟨sd, ck⟩
  · simp only [h1] at hinst ⊢
    rcases List.mem_cons.mp hinst with h | h
    · exact absurd h (by simp)
    · rcases List.mem_append.mp h with h' | h'
      · exact absurd (hs1 _ h') (by simp)
      · exact absurd (List.mem_singleton.mp h') (by simp)
  · cases sd
    · simp only [h1, Bool.false_eq_true, if_false] at hinst ⊢
      have hmem : Event.installHandle id ∈ (installStage w env).2 := by
        rcases List.mem_cons.mp hinst with h | h
        · exact absurd h (by simp)
        · rcases List.mem_append.mp h with h' | h'
          · rcases List.mem_append.mp h' with h'' | h''
            · exact absurd (hs1 _ h'') (by simp)
            · exact h''
          · exact absurd (List.mem_singleton.mp h') (by simp)
      obtain ⟨i1, i2, i3, i4⟩ := installStage_install_mem w env id hmem
      exact ⟨i1, i2, i3, List.mem_cons_of_mem _
        (List.mem_append_left _ (List.mem_append_right _ i4))⟩
    · rcases h2 : downloadStage w env ck with ⟨dl, s2⟩
      have hs2 : ∀ y ∈ s2, y = Event.httpGetArchive ∨
          y = Event.httpGetMD5 := by
        have hd := downloadStage_events w env ck
        rw [h2] at hd
        exact hd
      rcases dl with ⟨w2, r2⟩ | w2
      · simp only [h1, h2] at hinst ⊢
        rcases List.mem_cons.mp hinst with h | h
        · exact absurd h (by simp)
        · rcases List.mem_append.mp h with h' | h'
          · rcases List.mem_append.mp h' with h'' | h''
            · exact absurd (hs1 _ h'') (by simp)
            · exact absurd (hs2 _ h'') (by simp)
          · exact absurd (List.mem_singleton.mp h') (by simp)
      · simp only [h1, h2] at hinst ⊢
        have hmem : Event.installHandle id ∈ (installStage w2 env).2 := by
          rcases List.mem_cons.mp hinst with h | h
          · exact absurd h (by simp)
          · rcases List.mem_append.mp h with h' | h'
            · rcases List.mem_append.mp h' with h'' | h''
              · rcases List.mem_append.mp h'' with h3 | h3
                · exact absurd (hs1 _ h3) (by simp)
                · exact absurd (hs2 _ h3) (by simp)
              · exact h''
            · exact absurd (List.mem_singleton.mp h') (by simp)
        obtain ⟨i1, i2, i3, i4⟩ := installStage_install_mem w2 env id hmem
        exact ⟨i1, i2, i3, List.mem_cons_of_mem _
          (List.mem_append_left _ (List.mem_append_right _ i4))⟩

/-- C3: after every successful install of a new handle the cache is empty —
purged in the same critical section as the handle replacement (both the
`installHandle` and the `purgeCache` event happen under the exclusive lock
of the same call) — so the next lookup of every address invokes the decoder
again, and no entry cached under a prior handle can be returned. -/
theorem install_purges_cache_in_critical_section (w : World) (env : Env)
    (id : Nat)
    (hinst : Event.installHandle id ∈ (SetupDatabase w env).2.2) :
    (SetupDatabase w env).2.1 = none ∧
    (SetupDatabase w env).1.g.db = some id ∧
    (SetupDatabase w env).1.g.cache = [] ∧
    Event.installHandle id ∈
      eventsUnderLock (SetupDatabase w env).2.2 false ∧
    Event.purgeCache ∈ eventsUnderLock (SetupDatabase w env).2.2 false ∧
    ∀ dec a, (GetRecord (SetupDatabase w env).1 dec a).2.2 = true := by
  obtain ⟨he, hdb, hcache, hpurge⟩ := setup_install_inv w env id hinst
  obtain ⟨mid, hsh, hmid⟩ := setup_trace_shape w env
  have hul : eventsUnderLock (SetupDatabase w env).2.2 false = mid := by
    rw [hsh]
    exact eventsUnderLock_bracket mid hmid
  refine ⟨he, hdb, hcache, ?_, ?_, ?_⟩
  · rw [hul]
    exact mem_mid_of_mem_trace mid _ (hsh ▸ hinst) (by simp) (by simp)
  · rw [hul]
    exact mem_mid_of_mem_trace mid _ (hsh ▸ hpurge) (by simp) (by simp)
  · intro dec a
    rcases hd : dec id a with s | rec
    · rw [GetRecord_miss_err (SetupDatabase w env).1 dec a id s hdb
        (by rw [hcache]; rfl) hd]
    · rw [GetRecord_miss_ok (SetupDatabase w env).1 dec a id rec hdb
        (by rw [hcache]; rfl) hd]

/-- Witness for `install_purges_cache_in_critical_section`: the refresh
`w0`/`envBase` installs handle 1, empties the cache, both critical-section
events are under the lock, and the next lookup invokes the decoder. -/
theorem install_purges_cache_witness :
    (SetupDatabase w0 envBase).2.1 = none ∧
    (SetupDatabase w0 envBase).1.g.db = some 1 ∧
    (SetupDatabase w0 envBase).1.g.cache = [] ∧
    Event.purgeCache ∈
      eventsUnderLock (SetupDatabase w0 envBase).2.2 false ∧
    (GetRecord (SetupDatabase w0 envBase).1 decNoData "1.2.3.4").2.2 =
      true := by
  obtain ⟨h1, h2, h3, h4, h5, h6⟩ :=
    install_purges_cache_in_critical_section w0 envBase 1 (by decide)
  exact ⟨h1, h2, h3, h5, h6 decNoData "1.2.3.4"⟩

/-- A `ChecksumMismatch` from the download block arises only at the
comparison of lines 163-169: the archive body had been fully written to the
archive file and nothing else had changed. -/
theorem downloadStage_mismatch_inv (w : World) (env : Env) (ck : String)
    (w2 : World) (s2 : List Event)
    (h : downloadStage w env ck =
      (.inl (w2, some GoError.checksumMismatch), s2)) :
    ∃ body, env.archiveResp = .ok body ∧
      w2 = { w with fs := { w.fs with archiveFile := some body } } := by
  unfold downloadStage at h
  rcases harc : env.archiveResp with s | body <;> simp only [harc] at h
  · simp at h
  · rcases hca : env.createArchiveErr with _ | s <;> simp only [hca] at h
    · rcases hcp : env.copyArchiveErr with _ | s <;> simp only [hcp] at h
      · rcases hres : resolveChecksum env ck with s | p <;>
          simp only [hres] at h
        · simp at h
        · obtain ⟨lastCk, evExtra⟩ := p
          split at h
          · simp only [Prod.mk.injEq, Sum.inl.injEq] at h
            exact ⟨body, rfl, h.1.1.symm⟩
          · rcases hoa : env.openArchiveErr with _ | s <;>
              simp only [hoa] at h
            · rcases hgz : env.gzipErr with _ | s <;> simp only [hgz] at h
              · rcases hex : extractLoop w.g.edition env
                    { w.fs with archiveFile := some body }
                    env.tarEntries with ⟨fs2, e2, b2⟩
                simp only [hex] at h
                rcases e2 with _ | e2'
                · rcases b2
                  · simp at h
                  · repeat' split at h
                    all_goals simp_all
                · obtain ⟨m, hm⟩ :=
                    extractLoop_err_shape _ _ _ _ _ _ _ hex
                  subst hm
                  simp at h
              · simp at h
            · simp at h
      · simp at h
    · simp at h

/-- A `ChecksumMismatch` result from `SetupDatabase` pins down the final
state: the downloaded body sits in the archive file and everything else in
the world is unchanged. -/
theorem setup_mismatch_inv (w : World) (env : Env)
    (hrun : (SetupDatabase w env).2.1 = some GoError.checksumMismatch) :
    ∃ body, env.archiveResp = .ok body ∧
      (SetupDatabase w env).1 =
        { w with fs := { w.fs with archiveFile := some body } } := by
  unfold SetupDatabase at hrun ⊢
  rcases h1 : checkStage w env with ⟨x, s1⟩
  rcases x with r | ⟨sd, ck⟩
  · simp only [h1] at hrun ⊢
    rcases checkStage_inl_shape w env r s1 h1 with rfl | ⟨m, rfl⟩ <;>
      simp at hrun
  · cases sd
    · simp only [h1, Bool.false_eq_true, if_false] at hrun ⊢
      obtain ⟨m, hm⟩ := installStage_err_shape w env _ hrun
      simp at hm
    · rcases h2 : downloadStage w env ck with ⟨dl, s2⟩
      rcases dl with ⟨w2, r2⟩ | w2
      · simp only [h1, h2] at hrun ⊢
        subst hrun
        obtain ⟨body, hb, hw⟩ := downloadStage_mismatch_inv w env ck w2 s2 h2
        exact ⟨body, hb, hw⟩
      · simp only [h1, h2] at hrun ⊢
        obtain ⟨m, hm⟩ := installStage_err_shape w2 env _ hrun
        simp at hm

/-- C4: a refresh that fails checksum verification leaves the on-disk data
file, the checksum sidecar, the installed handle, the cache and the set of
closed handles unchanged, and every subsequent lookup still succeeds
against the old database (given the old handle decodes the address). -/
theorem checksum_mismatch_preserves_database (w : World) (env : Env)
    (hrun : (SetupDatabase w env).2.1 = some GoError.checksumMismatch) :
    (SetupDatabase w env).1.fs.dataFile = w.fs.dataFile ∧
    (SetupDatabase w env).1.fs.sidecar = w.fs.sidecar ∧
    (SetupDatabase w env).1.g.db = w.g.db ∧
    (SetupDatabase w env).1.g.cache = w.g.cache ∧
    (SetupDatabase w env).1.closed = w.closed ∧
    ∀ dec a id r, w.g.db = some id → dec id a = .ok r →
      ∃ r', (GetRecord (SetupDatabase w env).1 dec a).2.1 = .ok r' := by
  obtain ⟨body, -, hw⟩ := setup_mismatch_inv w env hrun
  rw [hw]
  refine ⟨rfl, rfl, rfl, rfl, rfl, ?_⟩
  intro dec a id r hdb hd
  rcases hc : cacheGet w.g.cache a with _ | c
  · exact ⟨r, by rw [GetRecord_miss_ok
      ({ w with fs := { w.fs with archiveFile := some body } })
      dec a id r hdb hc hd]⟩
  · exact ⟨c, by rw [GetRecord_hit
      ({ w with fs := { w.fs with archiveFile := some body } })
      dec a id c hdb hc]⟩

/-- Witness for `checksum_mismatch_preserves_database` at `w0`/`envMis`. -/
theorem checksum_mismatch_preserves_database_witness :
    (SetupDatabase w0 envMis).1.fs.dataFile = w0.fs.dataFile ∧
    (SetupDatabase w0 envMis).1.g.db = w0.g.db ∧
    ∃ r', (GetRecord (SetupDatabase w0 envMis).1 decNoData "1.2.3.4").2.1 =
      .ok r' := by
  obtain ⟨h1, h2, h3, h4, h5, h6⟩ :=
    checksum_mismatch_preserves_database w0 envMis rfl
  exact ⟨h1, h3, h6 decNoData "1.2.3.4" 0 recNoData rfl rfl⟩

/-- C5 amended: on a checksum-mismatch refresh failure the temporary data
and checksum files had not been created yet and the live (data file,
sidecar) pair is untouched, but the downloaded archive file is NOT
discarded — it remains on disk after the call returns. -/
theorem checksum_mismatch_leaves_archive (w : World) (env : Env)
    (hrun : (SetupDatabase w env).2.1 = some GoError.checksumMismatch) :
    (∃ body, env.archiveResp = .ok body ∧
      (SetupDatabase w env).1.fs.archiveFile = some body) ∧
    (SetupDatabase w env).1.fs.dataFile = w.fs.dataFile ∧
    (SetupDatabase w env).1.fs.sidecar = w.fs.sidecar ∧
    (SetupDatabase w env).1.fs.newDataFile = w.fs.newDataFile ∧
    (SetupDatabase w env).1.fs.newChecksumFile = w.fs.newChecksumFile := by
  obtain ⟨body, hb, hw⟩ := setup_mismatch_inv w env hrun
  rw [hw]
  exact ⟨⟨body, hb, rfl⟩, rfl, rfl, rfl, rfl⟩

/-- Witness for `checksum_mismatch_leaves_archive` at `w0`/`envMis`. -/
theorem checksum_mismatch_leaves_archive_witness :
    ∃ body, envMis.archiveResp = .ok body ∧
      (SetupDatabase w0 envMis).1.fs.archiveFile = some body :=
  (checksum_mismatch_leaves_archive w0 envMis rfl).1

/-- C6: when the data file and its sidecar both exist, a handle is
installed, and the fetched remote checksum trims to the locally recorded
checksum, `SetupDatabase` performs no network operation beyond the single
checksum probe, returns success classified `NoChangeNeeded`, and returns
the state completely unchanged — handle and cache included; hence a second
refresh under the same remote state again succeeds with identical cache
contents. -/
theorem no_change_refresh_is_noop (w : World) (env : Env) (h : Nat)
    (localCk body : String)
    (hdf : w.fs.dataFile.isSome) (hsc : w.fs.sidecar = some localCk)
    (hresp : env.md5Resp1 = .ok body)
    (heq : stringsTrimSpace body = localCk)
    (hdb : w.g.db = some h) :
    SetupDatabase w env =
      (w, none,
        [Event.lockAcquire, Event.httpGetMD5, Event.lockRelease]) ∧
    refreshKind (SetupDatabase w env).2.2 = RefreshKind.noChangeNeeded ∧
    (SetupDatabase (SetupDatabase w env).1 env).2.1 = none ∧
    (SetupDatabase (SetupDatabase w env).1 env).1.g.cache = w.g.cache := by
  obtain ⟨d, hd⟩ := Option.isSome_iff_exists.mp hdf
  have hcheck : checkStage w env = (.inl none, [Event.httpGetMD5]) := by
    unfold checkStage
    rw [hd, hsc, hresp]
    simp [heq, hdb]
  have hmain : SetupDatabase w env =
      (w, none,
        [Event.lockAcquire, Event.httpGetMD5, Event.lockRelease]) := by
    unfold SetupDatabase
    rw [hcheck]
    rfl
  have h1 : (SetupDatabase w env).1 = w := by rw [hmain]
  refine ⟨hmain, ?_, ?_, ?_⟩
  · rw [hmain]
    rfl
  · rw [h1, hmain]
  · rw [h1, hmain]

/-- Witness for `no_change_refresh_is_noop` at `w0`/`envNoChange`. -/
theorem no_change_refresh_is_noop_witness :
    SetupDatabase w0 envNoChange =
      (w0, none,
        [Event.lockAcquire, Event.httpGetMD5, Event.lockRelease]) ∧
    refreshKind (SetupDatabase w0 envNoChange).2.2 =
      RefreshKind.noChangeNeeded ∧
    (SetupDatabase (SetupDatabase w0 envNoChange).1 envNoChange).1.g.cache =
      w0.g.cache :=
  ⟨(no_change_refresh_is_noop w0 envNoChange 0 "aa" " aa "
      rfl rfl rfl rfl rfl).1,
   (no_change_refresh_is_noop w0 envNoChange 0 "aa" " aa "
      rfl rfl rfl rfl rfl).2.1,
   (no_change_refresh_is_noop w0 envNoChange 0 "aa" " aa "
      rfl rfl rfl rfl rfl).2.2.2⟩

/-- C8: when the download is triggered, the transfer, checksum resolution
and verification all succeed, but no tar entry has base name
`<edition>.mmdb`, `SetupDatabase` fails with
`ErrorDatabaseNotFoundInArchive` and the installed data file, sidecar,
handle and closed set are untouched. -/
theorem no_matching_entry_fails_entry_not_found (w : World) (env : Env)
    (ck : String) (s1 : List Event) (body ckr : String) (ev2 : List Event)
    (hck : checkStage w env = (.inr (true, ck), s1))
    (harc : env.archiveResp = .ok body)
    (hca : env.createArchiveErr = none)
    (hcp : env.copyArchiveErr = none)
    (hres : resolveChecksum env ck = .inr (ckr, ev2))
    (hsum : env.md5hex body = ckr)
    (hoa : env.openArchiveErr = none)
    (hgz : env.gzipErr = none)
    (hent : ∀ e ∈ env.tarEntries, ∃ te, e = .ok te ∧
      pathBase te.name ≠ w.g.edition ++ ".mmdb") :
    (SetupDatabase w env).2.1 = some GoError.notFoundInArchive ∧
    (SetupDatabase w env).1.fs.dataFile = w.fs.dataFile ∧
    (SetupDatabase w env).1.fs.sidecar = w.fs.sidecar ∧
    (SetupDatabase w env).1.g.db = w.g.db ∧
    (SetupDatabase w env).1.closed = w.closed := by
  have hdl : downloadStage w env ck =
      (.inl ({ w with fs := { w.fs with archiveFile := some body } },
          some GoError.notFoundInArchive),
        [Event.httpGetArchive] ++ ev2) := by
    unfold downloadStage
    rw [harc, hca, hcp, hres]
    simp only [hsum, bne_self_eq_false, Bool.false_eq_true, if_false]
    rw [hoa, hgz]
    rw [extractLoop_no_match w.g.edition env
      { w.fs with archiveFile := some body } env.tarEntries hent]
  unfold SetupDatabase
  simp only [hck, hdl]
  exact ⟨rfl, rfl, rfl, rfl, rfl⟩

/-- Witness for `no_matching_entry_fails_entry_not_found`: a startup
refresh over `wStart` whose archive only contains `ReadMe.txt`. -/
theorem no_matching_entry_witness :
    (SetupDatabase wStart envNoEntry).2.1 =
      some GoError.notFoundInArchive ∧
    (SetupDatabase wStart envNoEntry).1.g.db = wStart.g.db := by
  obtain ⟨h1, h2, h3, h4, h5⟩ :=
    no_matching_entry_fails_entry_not_found wStart envNoEntry "" [] "NEWDB"
      "bb" [Event.httpGetMD5] rfl rfl rfl rfl rfl rfl rfl rfl
      (by
        intro e he
        simp only [envNoEntry, envBase, List.mem_singleton] at he
        subst he
        exact ⟨⟨"ReadMe.txt", "hi"⟩, rfl, by decide⟩)
  exact ⟨h1, h4⟩

/-- C9 amended: the archive download of `SetupDatabase` is always
performed while the exclusive lock is held — the lock is acquired at entry
and released only at return, so concurrent lookups are blocked for the
duration of the download. -/
theorem download_always_under_lock (w : World) (env : Env)
    (hmem : Event.httpGetArchive ∈ (SetupDatabase w env).2.2) :
    Event.httpGetArchive ∈
      eventsUnderLock (SetupDatabase w env).2.2 false := by
  obtain ⟨mid, hsh, hmid⟩ := setup_trace_shape w env
  rw [hsh] at hmem ⊢
  rw [eventsUnderLock_bracket mid hmid]
  exact mem_mid_of_mem_trace mid _ hmem (by simp) (by simp)

/-- Witness for `download_always_under_lock`: the `w0`/`envBase` refresh
downloads the archive, and that download happens under the lock. -/
theorem download_always_under_lock_witness :
    Event.httpGetArchive ∈
      eventsUnderLock (SetupDatabase w0 envBase).2.2 false :=
  download_always_under_lock w0 envBase (by decide)

end GeoSvc
